import Mathlib

/-!
Verification of the GoLive credential broker and client bootstrap logic.

Server side (token controller): the identity registry is a process-wide
set of identity strings; two HTTP entry points (`GET /getToken` with query
parameters and `POST /api/livekit/token` with a JSON body) validate their
input, reserve the identity, and return an encoded credential.  We model
the registry as an explicit list-with-set-semantics threaded through the
handlers, JavaScript `undefined`-or-empty ("falsy") string checks as
checks on `Option String`, and an express handler outcome as either a
response (status plus body) or a call to `next(err)`.

Client side (App.tsx): the token fetch retry loop, the fetch success
check, the host resolution logic of `RoomView` (host branch: stable sort
by join timestamp; viewer branch: first non-local participant), and the
render selection of the viewer.  The `LogManager` ring buffer from
`LogDisplay` is modelled as a pure function on lists.
-/

/-- Publishing capability request passed to the token generator:
`{ roomName, identity, isPublisher }` in the controller. -/
structure TokenArgs where
  roomName : String
  identity : String
  isPublisher : Bool
deriving DecidableEq, Repr

/-- The claims a credential encodes: subject, room grant, publish
capability and the time-to-live in minutes. -/
structure Credential where
  subject : String
  room : String
  canPublish : Bool
  ttlMinutes : Nat
deriving DecidableEq, Repr

/-- Modelled from the spec: the Grant Encoder `generateToken` lives in
`utils/tokenGenerator`, a file that is not part of the available sources
(only its callers in the token controller are).  Per the spec it produces
a credential whose encoded claims are: subject = identity, a grant
permitting join of exactly `roomName` with publish permission iff the
capability requests it, and a time-to-live of 10 minutes. -/
def generateToken (args : TokenArgs) : Credential :=
  { subject := args.identity
    room := args.roomName
    canPublish := args.isPublisher
    ttlMinutes := 10 }

/-- Body of an HTTP response: a structured json object carrying a token
(`res.json({ token })`), a structured json error object
(`res.status(s).json({ error })`), or a bare string (`res.send(token)`). -/
inductive RespBody where
  | tokenObject (token : Credential)
  | errorObject (msg : String)
  | bareString (token : Credential)
deriving DecidableEq, Repr

/-- Outcome of an express handler: either a response was sent, or the
error was forwarded to the error middleware via `next(err)`. -/
inductive HandlerOutcome where
  | response (status : Nat) (body : RespBody)
  | serverError (err : String)
deriving DecidableEq, Repr

/-- Whether a handler outcome is a response whose body is a bare
(unwrapped) token string. -/
def HandlerOutcome.isBareStringResponse : HandlerOutcome → Bool
  | .response _ (.bareString _) => true
  | _ => false

/-- JavaScript falsiness of a possibly-missing string: `!x` is true when
the value is `undefined` or the empty string. -/
def falsyStr : Option String → Bool
  | none => true
  | some s => s.isEmpty

/-- JavaScript `String(x)` on a possibly-missing string: `undefined`
stringifies to `"undefined"`. -/
def jsString : Option String → String
  | none => "undefined"
  | some s => s

/-- ASCII lowering of one character, as JavaScript `toLowerCase` does on
the ASCII range (role strings are ASCII). -/
def lowerChar (c : Char) : Char :=
  if 65 ≤ c.toNat ∧ c.toNat ≤ 90 then Char.ofNat (c.toNat + 32) else c

/-- JavaScript `toLowerCase` on an ASCII string. -/
def jsToLower (s : String) : String :=
  ⟨s.data.map lowerChar⟩

/-- The identity registry `identities : Set<string>`, modelled as a list
with membership up to string equality (`identities.has`). -/
def hasIdent (ids : List String) (i : String) : Bool :=
  ids.contains i

/-- `identities.add(i)`: inserts `i` when absent, a no-op when present. -/
def addIdent (ids : List String) (i : String) : List String :=
  if ids.contains i then ids else i :: ids

/-- Query parameters of `GET /getToken`. -/
structure GetTokenQuery where
  roomName : Option String
  identity : Option String
  isPublisher : Option String
deriving DecidableEq, Repr

/-- JSON body of `POST /api/livekit/token`. -/
structure PostTokenBody where
  userId : Option String
  roomName : Option String
  role : Option String
deriving DecidableEq, Repr

/-- The `getToken` controller, parameterized by the token encoder so that
an encoder that throws (`Except.error`) exercises the `catch`/`next(err)`
path.  Mirrors the source: validate `roomName`/`identity`, reject an
already-reserved identity with 409, add the identity, then encode. -/
def getTokenWith (enc : TokenArgs → Except String Credential)
    (ids : List String) (q : GetTokenQuery) : HandlerOutcome × List String :=
  if falsyStr q.roomName || falsyStr q.identity then
    (.response 400 (.errorObject "roomName and identity are required"), ids)
  else
    let identity := q.identity.getD ""
    if hasIdent ids identity then
      (.response 409 (.errorObject "Identity must be unique per user"), ids)
    else
      let ids' := addIdent ids identity
      match enc { roomName := q.roomName.getD ""
                  identity := identity
                  isPublisher := q.isPublisher == some "true" } with
      | .ok tok => (.response 200 (.tokenObject tok), ids')
      | .error e => (.serverError e, ids')

/-- `getToken` with the actual (never-throwing) token generator. -/
def getToken (ids : List String) (q : GetTokenQuery) :
    HandlerOutcome × List String :=
  getTokenWith (fun a => .ok (generateToken a)) ids q

/-- The `postLivekitToken` controller, parameterized by the encoder.
Mirrors the source: validate `roomName`/`userId`, coerce the identity
with `String(userId)`, reject duplicates with 409, add the identity,
compute `isPublisher` by case-insensitive comparison of `String(role)`
with `"publisher"`, then encode. -/
def postLivekitTokenWith (enc : TokenArgs → Except String Credential)
    (ids : List String) (b : PostTokenBody) : HandlerOutcome × List String :=
  if falsyStr b.roomName || falsyStr b.userId then
    (.response 400 (.errorObject "roomName and userId are required"), ids)
  else
    let identity := jsString b.userId
    if hasIdent ids identity then
      (.response 409 (.errorObject "Identity must be unique per user"), ids)
    else
      let ids' := addIdent ids identity
      match enc { roomName := jsString b.roomName
                  identity := identity
                  isPublisher := jsToLower (jsString b.role) == "publisher" } with
      | .ok tok => (.response 200 (.tokenObject tok), ids')
      | .error e => (.serverError e, ids')

/-- `postLivekitToken` with the actual (never-throwing) token generator. -/
def postLivekitToken (ids : List String) (b : PostTokenBody) :
    HandlerOutcome × List String :=
  postLivekitTokenWith (fun a => .ok (generateToken a)) ids b

/-- An issuance request through either entry shape. -/
inductive IssuanceRequest where
  | query (q : GetTokenQuery)
  | body (b : PostTokenBody)
deriving DecidableEq, Repr

/-- Dispatch an issuance request to the matching controller. -/
def handleRequest (ids : List String) : IssuanceRequest → HandlerOutcome × List String
  | .query q => getToken ids q
  | .body b => postLivekitToken ids b

/-- A well-formed issuance request: both the room name and the identity
field are present and non-empty (the spec's Credential Request demands
non-empty strings for both). -/
def reqWellFormed : IssuanceRequest → Prop
  | .query q => falsyStr q.roomName = false ∧ falsyStr q.identity = false
  | .body b => falsyStr b.roomName = false ∧ falsyStr b.userId = false

/-- The identity string an issuance request is about. -/
def reqIdentity : IssuanceRequest → String
  | .query q => q.identity.getD ""
  | .body b => jsString b.userId

/-- Registry state after a sequence of issuance requests. -/
def runRequests (ids : List String) (reqs : List IssuanceRequest) : List String :=
  reqs.foldl (fun s r => (handleRequest s r).2) ids

/-- Semantic outcome of an issuance call, abstracting over response body
texts: a bad-request rejection, a conflict rejection, an issued
credential, or a forwarded server failure. -/
inductive Outcome where
  | badRequest
  | conflict
  | issued (c : Credential)
  | serverFailure (e : String)
  | other
deriving DecidableEq, Repr

/-- Read the semantic outcome off a handler outcome. -/
def outcomeOf : HandlerOutcome → Outcome
  | .serverError e => .serverFailure e
  | .response s b =>
    if s == 400 then .badRequest
    else if s == 409 then .conflict
    else match b with
      | .tokenObject c => .issued c
      | .bareString c => .issued c
      | .errorObject _ => .other

/-- Client-side retry constants from App.tsx. -/
def MAX_RETRIES : Nat := 3

/-- Fixed inter-attempt delay, in milliseconds. -/
def RETRY_DELAY_MS : Nat := 2000

/-- An HTTP response as the client's fetch sees it: the numeric status
and the body text.  `res.ok` is derived: status in the 200-299 range. -/
structure FetchResponse where
  status : Nat
  statusText : String
  body : String
deriving DecidableEq, Repr

/-- The `res.ok` flag of the fetch API: status in the success range. -/
def resOk (r : FetchResponse) : Bool :=
  200 ≤ r.status && r.status < 300

/-- One attempt of the loop body of `fetchTokenWithRetry`: a network
failure of `fetch` itself is an error; a non-ok status throws
`HTTP <status>: <statusText>`; an empty or shorter-than-10-character
body throws `Invalid or empty token response`; otherwise the body text
is the token. -/
def attemptOutcome : Except String FetchResponse → Except String String
  | .error e => .error e
  | .ok r =>
    if !resOk r then
      .error ("HTTP " ++ toString r.status ++ ": " ++ r.statusText)
    else if r.body.isEmpty || r.body.length < 10 then
      .error "Invalid or empty token response"
    else
      .ok r.body

/-- Decidable equality on `Except`, needed to evaluate retry traces. -/
instance {ε α : Type} [DecidableEq ε] [DecidableEq α] :
    DecidableEq (Except ε α) := fun a b =>
  match a, b with
  | .ok x, .ok y => decidable_of_iff (x = y) (by simp)
  | .ok _, .error _ => isFalse (by simp)
  | .error _, .ok _ => isFalse (by simp)
  | .error x, .error y => decidable_of_iff (x = y) (by simp)

/-- Observable trace of a run of the retry loop: the final result, how
many attempts were made, and the list of inter-attempt delays (in
milliseconds, in order). -/
structure RetryTrace where
  result : Except String String
  attempts : Nat
  delays : List Nat
deriving DecidableEq, Repr

/-- The retry loop of `fetchTokenWithRetry`, over the attempt counter and
the number of loop iterations left.  On a failed attempt with iterations
remaining, one fixed delay is recorded and the loop continues; on the
last failed attempt the error is rethrown; a successful attempt returns
immediately. -/
def retryAux (fetch : Nat → Except String FetchResponse) :
    Nat → Nat → RetryTrace
  | _, 0 => ⟨.error "All retries exhausted", 0, []⟩
  | attempt, n + 1 =>
    match attemptOutcome (fetch attempt) with
    | .ok tok => ⟨.ok tok, 1, []⟩
    | .error e =>
      if n = 0 then ⟨.error e, 1, []⟩
      else
        let rest := retryAux fetch (attempt + 1) n
        ⟨rest.result, rest.attempts + 1, RETRY_DELAY_MS :: rest.delays⟩

/-- `fetchTokenWithRetry`, with attempts numbered from 1 and the default
retry budget of `MAX_RETRIES`.  The fetch behavior is a function from the
attempt number to the attempt's HTTP result. -/
def fetchTokenWithRetry (fetch : Nat → Except String FetchResponse)
    (retries : Nat := MAX_RETRIES) : RetryTrace :=
  retryAux fetch 1 retries

/-- A room participant as host resolution sees it: session id, display
name, whether it is the local participant, and the join timestamp in
epoch milliseconds when known. -/
structure Participant where
  sid : String
  name : String
  isLocal : Bool
  joinedAt : Option Nat
deriving DecidableEq, Repr

/-- The sort key `a.joinedAt?.getTime() || 0` of the host branch. -/
def joinKey (p : Participant) : Nat :=
  p.joinedAt.getD 0

/-- Stable insertion by join key: a participant is placed before the
first element with a join key it does not exceed, so equal keys keep
their delivered order, as JavaScript's stable `Array.prototype.sort`
does with the comparator `(a, b) => key a - key b`. -/
def insertByJoin (p : Participant) : List Participant → List Participant
  | [] => [p]
  | q :: rest =>
    if joinKey p ≤ joinKey q then p :: q :: rest else q :: insertByJoin p rest

/-- Stable sort of the participant list by join key. -/
def sortByJoin : List Participant → List Participant
  | [] => []
  | p :: rest => insertByJoin p (sortByJoin rest)

/-- Host resolution in the host branch: the head of the participant list
sorted by join timestamp. -/
def resolveHostAsHost (ps : List Participant) : Option Participant :=
  (sortByJoin ps).head?

/-- Host resolution in the viewer branch: the first non-local participant
in delivered order, when one exists. -/
def resolveHostAsViewer (ps : List Participant) : Option Participant :=
  (ps.filter (fun p => !p.isLocal)).head?

/-- A video track reference, reduced to the attribute the viewer filter
reads: the session id of the participant the track originates from. -/
structure TrackRef where
  participantSid : String
deriving DecidableEq, Repr

/-- The track filter of the viewer: with a resolved host only that
host's tracks are kept, without one no track is rendered. -/
def filteredTracksForViewer (host : Option Participant)
    (tracks : List TrackRef) : List TrackRef :=
  match host with
  | some h => tracks.filter (fun t => t.participantSid == h.sid)
  | none => []

/-- What the viewer's RoomView renders. -/
inductive ViewerRender where
  | noHostNotice
  | waitingForHost
  | waitingForVideo
  | videoTracks (tracks : List TrackRef)
deriving DecidableEq, Repr

/-- Render selection for a viewer: an empty participant list shows the
`No host in the room` notice; an unresolved host shows
`Waiting for host to join...`; otherwise the host's tracks are rendered
when present and `Waiting for host video...` when not. -/
def viewerRender (ps : List Participant) (tracks : List TrackRef) :
    ViewerRender :=
  let host := resolveHostAsViewer ps
  if ps.length = 0 then .noHostNotice
  else if host.isNone then .waitingForHost
  else
    let ft := filteredTracksForViewer host tracks
    if 0 < ft.length then .videoTracks ft else .waitingForVideo

/-- Severity of a log entry. -/
inductive LogType where
  | log
  | error
  | warn
deriving DecidableEq, Repr

/-- One entry of the LogManager buffer. -/
structure LogEntry where
  message : String
  timestamp : String
  type : LogType
deriving DecidableEq, Repr

/-- `LogManager.addLog`: push the entry, then drop the oldest entry when
the buffer length exceeds 100. -/
def addLog (logs : List LogEntry) (e : LogEntry) : List LogEntry :=
  let l := logs ++ [e]
  if 100 < l.length then l.tail else l

lemma hasIdent_iff_mem (ids : List String) (i : String) :
    hasIdent ids i = true ↔ i ∈ ids := by
  simp [hasIdent, List.elem_iff]

lemma hasIdent_addIdent_self (ids : List String) (i : String) :
    hasIdent (addIdent ids i) i = true := by
  by_cases h : ids.contains i <;>
    simp [hasIdent, addIdent, h, List.elem_iff] at * <;> simp [h]

lemma hasIdent_addIdent_of (ids : List String) (i j : String)
    (h : hasIdent ids j = true) : hasIdent (addIdent ids i) j = true := by
  by_cases hc : ids.contains i <;>
    simp only [hasIdent, addIdent, hc, if_true, if_false] at *
  · exact h
  · rw [List.elem_iff] at h ⊢
    exact List.mem_cons_of_mem _ h

lemma getD_eq_jsString (o : Option String) (h : falsyStr o = false) :
    o.getD "" = jsString o := by
  cases o with
  | none => simp [falsyStr] at h
  | some s => rfl

lemma getToken_badRequest (ids : List String) (q : GetTokenQuery)
    (h : falsyStr q.roomName || falsyStr q.identity) :
    getToken ids q
      = (.response 400 (.errorObject "roomName and identity are required"), ids) := by
  simp [getToken, getTokenWith, h]

lemma getToken_conflict (ids : List String) (q : GetTokenQuery)
    (h1 : falsyStr q.roomName = false) (h2 : falsyStr q.identity = false)
    (h3 : hasIdent ids (q.identity.getD "") = true) :
    getToken ids q
      = (.response 409 (.errorObject "Identity must be unique per user"), ids) := by
  simp [getToken, getTokenWith, h1, h2, h3]

lemma getToken_success (ids : List String) (q : GetTokenQuery)
    (h1 : falsyStr q.roomName = false) (h2 : falsyStr q.identity = false)
    (h3 : hasIdent ids (q.identity.getD "") = false) :
    getToken ids q
      = (.response 200 (.tokenObject
          { subject := q.identity.getD ""
            room := q.roomName.getD ""
            canPublish := q.isPublisher == some "true"
            ttlMinutes := 10 }),
         addIdent ids (q.identity.getD "")) := by
  simp [getToken, getTokenWith, h1, h2, h3, generateToken]

lemma postLivekitToken_badRequest (ids : List String) (b : PostTokenBody)
    (h : falsyStr b.roomName || falsyStr b.userId) :
    postLivekitToken ids b
      = (.response 400 (.errorObject "roomName and userId are required"), ids) := by
  simp [postLivekitToken, postLivekitTokenWith, h]

lemma postLivekitToken_conflict (ids : List String) (b : PostTokenBody)
    (h1 : falsyStr b.roomName = false) (h2 : falsyStr b.userId = false)
    (h3 : hasIdent ids (jsString b.userId) = true) :
    postLivekitToken ids b
      = (.response 409 (.errorObject "Identity must be unique per user"), ids) := by
  simp [postLivekitToken, postLivekitTokenWith, h1, h2, h3]

lemma postLivekitToken_success (ids : List String) (b : PostTokenBody)
    (h1 : falsyStr b.roomName = false) (h2 : falsyStr b.userId = false)
    (h3 : hasIdent ids (jsString b.userId) = false) :
    postLivekitToken ids b
      = (.response 200 (.tokenObject
          { subject := jsString b.userId
            room := jsString b.roomName
            canPublish := jsToLower (jsString b.role) == "publisher"
            ttlMinutes := 10 }),
         addIdent ids (jsString b.userId)) := by
  simp [postLivekitToken, postLivekitTokenWith, h1, h2, h3, generateToken]

lemma handleRequest_mono (ids : List String) (req : IssuanceRequest) (j : String)
    (h : hasIdent ids j = true) :
    hasIdent (handleRequest ids req).2 j = true := by
  cases req with
  | query q =>
    by_cases h1 : falsyStr q.roomName || falsyStr q.identity
    · rw [handleRequest, getToken_badRequest ids q h1]; exact h
    · rw [Bool.not_eq_true, Bool.or_eq_false_iff] at h1
      by_cases h3 : hasIdent ids (q.identity.getD "") = true
      · rw [handleRequest, getToken_conflict ids q h1.1 h1.2 h3]; exact h
      · rw [handleRequest,
          getToken_success ids q h1.1 h1.2 (by simpa using h3)]
        exact hasIdent_addIdent_of _ _ _ h
  | body b =>
    by_cases h1 : falsyStr b.roomName || falsyStr b.userId
    · rw [handleRequest, postLivekitToken_badRequest ids b h1]; exact h
    · rw [Bool.not_eq_true, Bool.or_eq_false_iff] at h1
      by_cases h3 : hasIdent ids (jsString b.userId) = true
      · rw [handleRequest, postLivekitToken_conflict ids b h1.1 h1.2 h3]; exact h
      · rw [handleRequest,
          postLivekitToken_success ids b h1.1 h1.2 (by simpa using h3)]
        exact hasIdent_addIdent_of _ _ _ h

lemma runRequests_mono (ids : List String) (reqs : List IssuanceRequest)
    (j : String) (h : hasIdent ids j = true) :
    hasIdent (runRequests ids reqs) j = true := by
  induction reqs generalizing ids with
  | nil => exact h
  | cons r rs ih =>
    have hstep : runRequests ids (r :: rs) = runRequests (handleRequest ids r).2 rs := rfl
    rw [hstep]
    exact ih _ (handleRequest_mono ids r j h)


lemma handleRequest_success (ids : List String) (req : IssuanceRequest)
    (hwf : reqWellFormed req)
    (hfree : hasIdent ids (reqIdentity req) = false) :
    ∃ tok, handleRequest ids req
      = (.response 200 (.tokenObject tok), addIdent ids (reqIdentity req)) := by
  cases req with
  | query q =>
    obtain ⟨h1, h2⟩ := hwf
    exact ⟨_, getToken_success ids q h1 h2 hfree⟩
  | body b =>
    obtain ⟨h1, h2⟩ := hwf
    exact ⟨_, postLivekitToken_success ids b h1 h2 hfree⟩

lemma handleRequest_conflict (ids : List String) (req : IssuanceRequest)
    (hwf : reqWellFormed req)
    (hres : hasIdent ids (reqIdentity req) = true) :
    handleRequest ids req
      = (.response 409 (.errorObject "Identity must be unique per user"), ids) := by
  cases req with
  | query q =>
    obtain ⟨h1, h2⟩ := hwf
    exact getToken_conflict ids q h1 h2 hres
  | body b =>
    obtain ⟨h1, h2⟩ := hwf
    exact postLivekitToken_conflict ids b h1 h2 hres

/-- C1: the first well-formed issuance request for an identity (by either
entry shape) reserves it and is answered with a credential; every request
for an already-reserved identity is rejected with a 409 conflict and
leaves the registry unchanged; no request ever removes a reservation, so
once reserved, an identity stays reserved across any further sequence of
requests for the lifetime of the broker process. -/
theorem c1_identity_reserved_once (ids : List String) (req : IssuanceRequest)
    (i : String) (hwf : reqWellFormed req) (hid : reqIdentity req = i) :
    (hasIdent ids i = false →
      (∃ tok, (handleRequest ids req).1 = .response 200 (.tokenObject tok)) ∧
      hasIdent (handleRequest ids req).2 i = true) ∧
    (hasIdent ids i = true →
      (handleRequest ids req).1
        = .response 409 (.errorObject "Identity must be unique per user") ∧
      (handleRequest ids req).2 = ids) ∧
    (∀ req' j, hasIdent ids j = true →
      hasIdent (handleRequest ids req').2 j = true) ∧
    (∀ reqs, hasIdent ids i = true →
      hasIdent (runRequests ids reqs) i = true) := by
  subst hid
  refine ⟨?_, ?_, fun req' j hj => handleRequest_mono ids req' j hj,
    fun reqs hi => runRequests_mono ids reqs _ hi⟩
  · intro hfree
    obtain ⟨tok, hx⟩ := handleRequest_success ids req hwf hfree
    rw [hx]
    exact ⟨⟨tok, rfl⟩, hasIdent_addIdent_self ids _⟩
  · intro hres
    rw [handleRequest_conflict ids req hwf hres]
    exact ⟨rfl, rfl⟩

/-- Witness for C1 at concrete inputs: a fresh identity is issued a token
and becomes reserved; a request for a reserved identity is a 409 conflict
that leaves the registry unchanged. -/
theorem c1_identity_reserved_once_witness :
    ((∃ tok, (handleRequest [] (.query ⟨some "r", some "i", some "true"⟩)).1
        = .response 200 (.tokenObject tok)) ∧
      hasIdent (handleRequest [] (.query ⟨some "r", some "i", some "true"⟩)).2 "i"
        = true) ∧
    ((handleRequest ["i"] (.body ⟨some "i", some "r", some "viewer"⟩)).1
        = .response 409 (.errorObject "Identity must be unique per user") ∧
      (handleRequest ["i"] (.body ⟨some "i", some "r", some "viewer"⟩)).2 = ["i"]) :=
  ⟨(c1_identity_reserved_once [] (.query ⟨some "r", some "i", some "true"⟩) "i"
      ⟨rfl, rfl⟩ rfl).1 rfl,
   (c1_identity_reserved_once ["i"] (.body ⟨some "i", some "r", some "viewer"⟩) "i"
      ⟨rfl, rfl⟩ rfl).2.1 (by decide)⟩

/-- C2: on a valid issuance through either entry point, the encoded
credential's subject is exactly the supplied identity, its room grant is
exactly the supplied room name, and its publish capability is set iff the
request asked for the publisher capability (query shape: the
`isPublisher` parameter equals the string `true`; body shape: the `role`
string is case-insensitively `publisher`).  The encoder itself is
modelled from the spec, its source being absent from the repository
snapshot. -/
theorem c2_issued_credential_matches_inputs (ids : List String)
    (q : GetTokenQuery) (b : PostTokenBody)
    (hq : falsyStr q.roomName = false ∧ falsyStr q.identity = false)
    (hqf : hasIdent ids (q.identity.getD "") = false)
    (hb : falsyStr b.roomName = false ∧ falsyStr b.userId = false)
    (hbf : hasIdent ids (jsString b.userId) = false) :
    (getToken ids q).1 = .response 200 (.tokenObject
      { subject := q.identity.getD ""
        room := q.roomName.getD ""
        canPublish := q.isPublisher == some "true"
        ttlMinutes := 10 }) ∧
    (postLivekitToken ids b).1 = .response 200 (.tokenObject
      { subject := jsString b.userId
        room := jsString b.roomName
        canPublish := jsToLower (jsString b.role) == "publisher"
        ttlMinutes := 10 }) := by
  constructor
  · rw [getToken_success ids q hq.1 hq.2 hqf]
  · rw [postLivekitToken_success ids b hb.1 hb.2 hbf]

/-- Witness for C2 at concrete inputs: the query shape with
`isPublisher=true` yields a publishing credential for exactly the given
room and identity, and the body shape with `role=Publisher` does too. -/
theorem c2_issued_credential_matches_inputs_witness :
    (getToken [] ⟨some "r1", some "u1", some "true"⟩).1
      = .response 200 (.tokenObject ⟨"u1", "r1", true, 10⟩) ∧
    (postLivekitToken [] ⟨some "u2", some "r1", some "Publisher"⟩).1
      = .response 200 (.tokenObject ⟨"u2", "r1", true, 10⟩) :=
  c2_issued_credential_matches_inputs []
    ⟨some "r1", some "u1", some "true"⟩ ⟨some "u2", some "r1", some "Publisher"⟩
    ⟨rfl, rfl⟩ rfl ⟨rfl, rfl⟩ rfl

lemma retryAux_ok (fetch : Nat → Except String FetchResponse)
    (attempt n : Nat) (tok : String)
    (h : attemptOutcome (fetch attempt) = .ok tok) :
    retryAux fetch attempt (n + 1) = ⟨.ok tok, 1, []⟩ := by
  simp [retryAux, h]

lemma retryAux_error_last (fetch : Nat → Except String FetchResponse)
    (attempt : Nat) (e : String)
    (h : attemptOutcome (fetch attempt) = .error e) :
    retryAux fetch attempt 1 = ⟨.error e, 1, []⟩ := by
  simp [retryAux, h]

lemma retryAux_error_step (fetch : Nat → Except String FetchResponse)
    (attempt n : Nat) (e : String)
    (h : attemptOutcome (fetch attempt) = .error e) (hn : n ≠ 0) :
    retryAux fetch attempt (n + 1)
      = ⟨(retryAux fetch (attempt + 1) n).result,
         (retryAux fetch (attempt + 1) n).attempts + 1,
         RETRY_DELAY_MS :: (retryAux fetch (attempt + 1) n).delays⟩ := by
  simp [retryAux, h, hn]

/-- C3: the retry loop makes at most 3 attempts; its delays are a fixed
2000 ms after every attempt except the last one made (no backoff growth);
a first-attempt success ends the run with 1 attempt and no delay; a
failure then a success ends it with 2 attempts and one delay; two
failures then a success reach success on the 3rd attempt after exactly 2
delays; three failures end as a failure carrying the last error, after
exactly 3 attempts (no 4th) and 2 delays. -/
theorem c3_bounded_fixed_delay_retry (fetch : Nat → Except String FetchResponse) :
    (fetchTokenWithRetry fetch).attempts ≤ 3 ∧
    (fetchTokenWithRetry fetch).delays
      = List.replicate ((fetchTokenWithRetry fetch).attempts - 1) RETRY_DELAY_MS ∧
    (∀ tok, attemptOutcome (fetch 1) = .ok tok →
      fetchTokenWithRetry fetch = ⟨.ok tok, 1, []⟩) ∧
    (∀ e1 tok, attemptOutcome (fetch 1) = .error e1 →
      attemptOutcome (fetch 2) = .ok tok →
      fetchTokenWithRetry fetch = ⟨.ok tok, 2, [RETRY_DELAY_MS]⟩) ∧
    (∀ e1 e2 tok, attemptOutcome (fetch 1) = .error e1 →
      attemptOutcome (fetch 2) = .error e2 →
      attemptOutcome (fetch 3) = .ok tok →
      fetchTokenWithRetry fetch
        = ⟨.ok tok, 3, [RETRY_DELAY_MS, RETRY_DELAY_MS]⟩) ∧
    (∀ e1 e2 e3, attemptOutcome (fetch 1) = .error e1 →
      attemptOutcome (fetch 2) = .error e2 →
      attemptOutcome (fetch 3) = .error e3 →
      fetchTokenWithRetry fetch
        = ⟨.error e3, 3, [RETRY_DELAY_MS, RETRY_DELAY_MS]⟩) := by
  have hdef : fetchTokenWithRetry fetch = retryAux fetch 1 3 := rfl
  cases h1 : attemptOutcome (fetch 1) with
  | ok tok1 =>
    have ht : fetchTokenWithRetry fetch = ⟨.ok tok1, 1, []⟩ := by
      rw [hdef, show (3 : Nat) = 2 + 1 from rfl, retryAux_ok fetch 1 2 tok1 h1]
    refine ⟨by rw [ht]; simp, by rw [ht]; rfl, ?_, ?_, ?_, ?_⟩
    · intro tok h
      cases h
      exact ht
    · intro e tok h _
      cases h
    · intro e e' tok h _ _
      cases h
    · intro e e' e'' h _ _
      cases h
  | error e1 =>
    have hstep1 : retryAux fetch 1 3
        = ⟨(retryAux fetch 2 2).result, (retryAux fetch 2 2).attempts + 1,
           RETRY_DELAY_MS :: (retryAux fetch 2 2).delays⟩ := by
      rw [show (3 : Nat) = 2 + 1 from rfl]
      exact retryAux_error_step fetch 1 2 e1 h1 (by decide)
    cases h2 : attemptOutcome (fetch 2) with
    | ok tok2 =>
      have ht : fetchTokenWithRetry fetch = ⟨.ok tok2, 2, [RETRY_DELAY_MS]⟩ := by
        rw [hdef, hstep1, show (2 : Nat) = 1 + 1 from rfl,
          retryAux_ok fetch 2 1 tok2 h2]
      refine ⟨by rw [ht]; simp, by rw [ht]; rfl, ?_, ?_, ?_, ?_⟩
      · intro tok h
        cases h
      · intro e tok h h'
        cases h
        cases h'
        exact ht
      · intro e e' tok _ h' _
        cases h'
      · intro e e' e'' _ h' _
        cases h'
    | error e2 =>
      have hstep2 : retryAux fetch 2 2
          = ⟨(retryAux fetch 3 1).result, (retryAux fetch 3 1).attempts + 1,
             RETRY_DELAY_MS :: (retryAux fetch 3 1).delays⟩ := by
        rw [show (2 : Nat) = 1 + 1 from rfl]
        exact retryAux_error_step fetch 2 1 e2 h2 (by decide)
      cases h3 : attemptOutcome (fetch 3) with
      | ok tok3 =>
        have ht : fetchTokenWithRetry fetch
            = ⟨.ok tok3, 3, [RETRY_DELAY_MS, RETRY_DELAY_MS]⟩ := by
          rw [hdef, hstep1, hstep2, show (1 : Nat) = 0 + 1 from rfl,
            retryAux_ok fetch 3 0 tok3 h3]
        refine ⟨by rw [ht], by rw [ht]; rfl, ?_, ?_, ?_, ?_⟩
        · intro tok h
          cases h
        · intro e tok _ h'
          cases h'
        · intro e e' tok h h' h''
          cases h''
          exact ht
        · intro e e' e'' _ _ h''
          cases h''
      | error e3 =>
        have ht : fetchTokenWithRetry fetch
            = ⟨.error e3, 3, [RETRY_DELAY_MS, RETRY_DELAY_MS]⟩ := by
          rw [hdef, hstep1, hstep2, retryAux_error_last fetch 3 e3 h3]
        refine ⟨by rw [ht], by rw [ht]; rfl, ?_, ?_, ?_, ?_⟩
        · intro tok h
          cases h
        · intro e tok _ h'
          cases h'
        · intro e e' tok _ _ h''
          cases h''
        · intro e e' e'' h h' h''
          cases h''
          exact ht

/-- Witness for C3: a fetch that fails twice with a network error and
then returns a valid body succeeds on the 3rd attempt after exactly two
2000 ms delays. -/
theorem c3_bounded_fixed_delay_retry_witness :
    fetchTokenWithRetry (fun n =>
        if n ≤ 2 then .error "network down"
        else .ok ⟨200, "OK", "tokentoken"⟩)
      = ⟨.ok "tokentoken", 3, [RETRY_DELAY_MS, RETRY_DELAY_MS]⟩ :=
  (c3_bounded_fixed_delay_retry (fun n =>
      if n ≤ 2 then .error "network down"
      else .ok ⟨200, "OK", "tokentoken"⟩)).2.2.2.2.1
    "network down" "network down" "tokentoken" rfl rfl rfl

/-- C8: an attempt whose HTTP layer returned a response is successful iff
the status is in the 200-299 range and the body is non-empty with at
least 10 characters; the successful value is exactly the body text;
every other response is a retryable error.  In particular a 200 response
with a 5-character body fails with the invalid-token error. -/
theorem c8_fetch_success_criterion (r : FetchResponse) :
    (attemptOutcome (.ok r) = .ok r.body ↔
      (200 ≤ r.status ∧ r.status < 300 ∧ r.body ≠ "" ∧ 10 ≤ r.body.length)) ∧
    (attemptOutcome (.ok r) = .ok r.body ∨
      ∃ e, attemptOutcome (.ok r) = .error e) ∧
    attemptOutcome (.ok ⟨200, "OK", "abcde"⟩)
      = .error "Invalid or empty token response" := by
  refine ⟨?_, ?_, by decide⟩
  · cases hok : resOk r with
    | false =>
      constructor
      · intro h
        simp [attemptOutcome, hok] at h
      · rintro ⟨hs1, hs2, _, _⟩
        have hok' : resOk r = true := by
          unfold resOk
          rw [Bool.and_eq_true]
          exact ⟨decide_eq_true hs1, decide_eq_true hs2⟩
        rw [hok'] at hok
        cases hok
    | true =>
      cases hbad : (r.body.isEmpty || decide (r.body.length < 10)) with
      | true =>
        constructor
        · intro h
          simp [attemptOutcome, hok, hbad] at h
        · rintro ⟨_, _, hne, hlen⟩
          rcases Bool.or_eq_true_iff.mp hbad with hemp | hshort
          · exact absurd ((String.isEmpty_iff r.body).mp hemp) hne
          · rw [decide_eq_true_eq] at hshort
            omega
      | false =>
        constructor
        · intro _
          rw [Bool.or_eq_false_iff] at hbad
          refine ⟨?_, ?_, ?_, ?_⟩
          · have := Bool.and_eq_true (decide (200 ≤ r.status))
              (decide (r.status < 300))
            rw [resOk] at hok
            rw [Bool.and_eq_true] at hok
            exact of_decide_eq_true hok.1
          · rw [resOk, Bool.and_eq_true] at hok
            exact of_decide_eq_true hok.2
          · intro hs
            rw [hs, show "".isEmpty = true from rfl] at hbad
            cases hbad.1
          · have := hbad.2
            rw [decide_eq_false_iff_not] at this
            omega
        · intro _
          simp [attemptOutcome, hok, hbad]
  · cases hok : resOk r with
    | false =>
      exact Or.inr ⟨"HTTP " ++ toString r.status ++ ": " ++ r.statusText,
        by simp [attemptOutcome, hok]⟩
    | true =>
      cases hbad : (r.body.isEmpty || decide (r.body.length < 10)) with
      | true =>
        exact Or.inr ⟨"Invalid or empty token response",
          by simp [attemptOutcome, hok, hbad]⟩
      | false =>
        exact Or.inl (by simp [attemptOutcome, hok, hbad])

/-- Witness for C8: a 200 response with a 10-character body is accepted
and its body is returned as the token. -/
theorem c8_fetch_success_criterion_witness :
    attemptOutcome (.ok ⟨200, "OK", "tokentoken"⟩) = .ok "tokentoken" :=
  (c8_fetch_success_criterion ⟨200, "OK", "tokentoken"⟩).1.mpr
    ⟨by norm_num, by norm_num, by decide, by decide⟩

/-- C4 counterexample: at a concrete valid query-style request the
success response wraps the credential in a structured token object
(`res.json({ token })` in the source); it is not a bare string body, as
the claim asserts for the query-style path. -/
theorem c4_counterexample_getToken_wraps_token :
    (getToken [] ⟨some "r", some "i", some "true"⟩).1
      = .response 200 (.tokenObject ⟨"i", "r", true, 10⟩) ∧
    HandlerOutcome.isBareStringResponse
      (getToken [] ⟨some "r", some "i", some "true"⟩).1 = false := by
  decide

/-- C4 amended: on successful issuance both entry points return the
credential wrapped in a structured token object; neither returns a bare
token string. -/
theorem c4_both_entry_points_wrap_token (ids : List String)
    (q : GetTokenQuery) (b : PostTokenBody)
    (hq : falsyStr q.roomName = false ∧ falsyStr q.identity = false)
    (hqf : hasIdent ids (q.identity.getD "") = false)
    (hb : falsyStr b.roomName = false ∧ falsyStr b.userId = false)
    (hbf : hasIdent ids (jsString b.userId) = false) :
    (∃ tok, (getToken ids q).1 = .response 200 (.tokenObject tok)) ∧
    HandlerOutcome.isBareStringResponse (getToken ids q).1 = false ∧
    (∃ tok, (postLivekitToken ids b).1 = .response 200 (.tokenObject tok)) ∧
    HandlerOutcome.isBareStringResponse (postLivekitToken ids b).1 = false := by
  rw [getToken_success ids q hq.1 hq.2 hqf,
    postLivekitToken_success ids b hb.1 hb.2 hbf]
  exact ⟨⟨_, rfl⟩, rfl, ⟨_, rfl⟩, rfl⟩

/-- Witness for the amended C4 at concrete inputs: neither entry point
answers a valid request with a bare string body. -/
theorem c4_both_entry_points_wrap_token_witness :
    HandlerOutcome.isBareStringResponse
      (getToken [] ⟨some "r", some "i", some "true"⟩).1 = false ∧
    HandlerOutcome.isBareStringResponse
      (postLivekitToken [] ⟨some "u", some "r", some "publisher"⟩).1 = false :=
  ⟨(c4_both_entry_points_wrap_token [] ⟨some "r", some "i", some "true"⟩
      ⟨some "u", some "r", some "publisher"⟩ ⟨rfl, rfl⟩ rfl ⟨rfl, rfl⟩ rfl).2.1,
   (c4_both_entry_points_wrap_token [] ⟨some "r", some "i", some "true"⟩
      ⟨some "u", some "r", some "publisher"⟩ ⟨rfl, rfl⟩ rfl ⟨rfl, rfl⟩ rfl).2.2.2⟩

/-- C5: corresponding requests through the two entry shapes — the same
optional room and identity strings, with capabilities that agree (query
`isPublisher` equals the string `true` exactly when the body `role` is
case-insensitively `publisher`) — produce the same semantic outcome (bad
request, conflict, or a credential with identical encoded content) and
leave the registry in the same state. -/
theorem c5_entry_shape_equivalence (ids : List String)
    (room ident pub role : Option String)
    (hcap : (pub == some "true") = (jsToLower (jsString role) == "publisher")) :
    outcomeOf (getToken ids ⟨room, ident, pub⟩).1
      = outcomeOf (postLivekitToken ids ⟨ident, room, role⟩).1 ∧
    (getToken ids ⟨room, ident, pub⟩).2
      = (postLivekitToken ids ⟨ident, room, role⟩).2 := by
  by_cases h1 : (falsyStr room || falsyStr ident) = true
  · rw [getToken_badRequest ids _ h1, postLivekitToken_badRequest ids _ h1]
    exact ⟨rfl, rfl⟩
  · rw [Bool.not_eq_true, Bool.or_eq_false_iff] at h1
    have hideq : ident.getD "" = jsString ident := getD_eq_jsString ident h1.2
    have hreq : room.getD "" = jsString room := getD_eq_jsString room h1.1
    by_cases h3 : hasIdent ids (jsString ident) = true
    · rw [getToken_conflict ids _ h1.1 h1.2 (by rw [hideq]; exact h3),
        postLivekitToken_conflict ids _ h1.1 h1.2 h3]
      exact ⟨rfl, rfl⟩
    · have h3' : hasIdent ids (jsString ident) = false := by
        simpa using h3
      rw [getToken_success ids _ h1.1 h1.2 (by rw [hideq]; exact h3'),
        postLivekitToken_success ids _ h1.1 h1.2 h3']
      constructor
      · simp [outcomeOf, hideq, hreq, hcap]
      · rw [hideq]

/-- Witness for C5 at concrete corresponding inputs: a query request with
`isPublisher=true` and a body request with `role=PUBLISHER` give the same
outcome and the same registry state. -/
theorem c5_entry_shape_equivalence_witness :
    outcomeOf (getToken [] ⟨some "r1", some "u1", some "true"⟩).1
      = outcomeOf (postLivekitToken [] ⟨some "u1", some "r1", some "PUBLISHER"⟩).1 ∧
    (getToken [] ⟨some "r1", some "u1", some "true"⟩).2
      = (postLivekitToken [] ⟨some "u1", some "r1", some "PUBLISHER"⟩).2 :=
  c5_entry_shape_equivalence [] (some "r1") (some "u1") (some "true")
    (some "PUBLISHER") (by decide)

lemma getTokenWith_encoderError (enc : TokenArgs → Except String Credential)
    (ids : List String) (q : GetTokenQuery) (e : String)
    (h1 : falsyStr q.roomName = false) (h2 : falsyStr q.identity = false)
    (h3 : hasIdent ids (q.identity.getD "") = false)
    (he : enc { roomName := q.roomName.getD ""
                identity := q.identity.getD ""
                isPublisher := q.isPublisher == some "true" } = .error e) :
    getTokenWith enc ids q = (.serverError e, addIdent ids (q.identity.getD "")) := by
  simp [getTokenWith, h1, h2, h3, he]

lemma postLivekitTokenWith_encoderError (enc : TokenArgs → Except String Credential)
    (ids : List String) (b : PostTokenBody) (e : String)
    (h1 : falsyStr b.roomName = false) (h2 : falsyStr b.userId = false)
    (h3 : hasIdent ids (jsString b.userId) = false)
    (he : enc { roomName := jsString b.roomName
                identity := jsString b.userId
                isPublisher := jsToLower (jsString b.role) == "publisher" } = .error e) :
    postLivekitTokenWith enc ids b
      = (.serverError e, addIdent ids (jsString b.userId)) := by
  simp [postLivekitTokenWith, h1, h2, h3, he]

/-- C9 counterexample: with an encoder that throws after the identity
check, the request surfaces as a forwarded server error, but the registry
is NOT unchanged — the identity has been reserved and stays reserved,
contradicting the claim that no partially-reserved identity is left. -/
theorem c9_counterexample_registry_changed_on_error :
    (getTokenWith (fun _ => .error "boom") [] ⟨some "r", some "i", some "true"⟩).1
      = .serverError "boom" ∧
    (getTokenWith (fun _ => .error "boom") [] ⟨some "r", some "i", some "true"⟩).2
      ≠ ([] : List String) ∧
    hasIdent
      (getTokenWith (fun _ => .error "boom") [] ⟨some "r", some "i", some "true"⟩).2
      "i" = true := by
  decide

/-- C9 amended: when the encoder throws after the identity check, either
handler surfaces the failure as a forwarded server error, and the
identity remains reserved — the reservation made before encoding is not
rolled back. -/
theorem c9_server_error_keeps_reservation
    (enc : TokenArgs → Except String Credential) (ids : List String)
    (q : GetTokenQuery) (b : PostTokenBody) (e e' : String)
    (hq : falsyStr q.roomName = false ∧ falsyStr q.identity = false)
    (hqf : hasIdent ids (q.identity.getD "") = false)
    (hqe : enc { roomName := q.roomName.getD ""
                 identity := q.identity.getD ""
                 isPublisher := q.isPublisher == some "true" } = .error e)
    (hb : falsyStr b.roomName = false ∧ falsyStr b.userId = false)
    (hbf : hasIdent ids (jsString b.userId) = false)
    (hbe : enc { roomName := jsString b.roomName
                 identity := jsString b.userId
                 isPublisher := jsToLower (jsString b.role) == "publisher" }
      = .error e') :
    (getTokenWith enc ids q).1 = .serverError e ∧
    hasIdent (getTokenWith enc ids q).2 (q.identity.getD "") = true ∧
    (postLivekitTokenWith enc ids b).1 = .serverError e' ∧
    hasIdent (postLivekitTokenWith enc ids b).2 (jsString b.userId) = true := by
  rw [getTokenWith_encoderError enc ids q e hq.1 hq.2 hqf hqe,
    postLivekitTokenWith_encoderError enc ids b e' hb.1 hb.2 hbf hbe]
  exact ⟨rfl, hasIdent_addIdent_self ids _, rfl, hasIdent_addIdent_self ids _⟩

/-- Witness for the amended C9 at concrete inputs: a throwing encoder
yields a forwarded server error while the identity stays reserved. -/
theorem c9_server_error_keeps_reservation_witness :
    (getTokenWith (fun _ => .error "boom") [] ⟨some "r", some "i", some "true"⟩).1
      = .serverError "boom" ∧
    hasIdent
      (getTokenWith (fun _ => .error "boom") [] ⟨some "r", some "i", some "true"⟩).2
      "i" = true :=
  ⟨(c9_server_error_keeps_reservation (fun _ => .error "boom") []
      ⟨some "r", some "i", some "true"⟩ ⟨some "u", some "r", some "viewer"⟩
      "boom" "boom" ⟨rfl, rfl⟩ rfl rfl ⟨rfl, rfl⟩ rfl rfl).1,
   (c9_server_error_keeps_reservation (fun _ => .error "boom") []
      ⟨some "r", some "i", some "true"⟩ ⟨some "u", some "r", some "viewer"⟩
      "boom" "boom" ⟨rfl, rfl⟩ rfl rfl ⟨rfl, rfl⟩ rfl rfl).2.1⟩

lemma insertByJoin_perm (p : Participant) (l : List Participant) :
    (insertByJoin p l).Perm (p :: l) := by
  induction l with
  | nil => exact List.Perm.refl _
  | cons q rest ih =>
    simp only [insertByJoin]
    split
    · exact List.Perm.refl _
    · exact (List.Perm.cons q ih).trans (List.Perm.swap p q rest)

lemma sortByJoin_perm (l : List Participant) : (sortByJoin l).Perm l := by
  induction l with
  | nil => exact List.Perm.refl _
  | cons p rest ih =>
    exact (insertByJoin_perm p (sortByJoin rest)).trans (List.Perm.cons p ih)

lemma pairwise_insertByJoin (p : Participant) (l : List Participant)
    (h : l.Pairwise (fun a b => joinKey a ≤ joinKey b)) :
    (insertByJoin p l).Pairwise (fun a b => joinKey a ≤ joinKey b) := by
  induction l with
  | nil => simp [insertByJoin]
  | cons q rest ih =>
    rcases List.pairwise_cons.mp h with ⟨hq, hrest⟩
    simp only [insertByJoin]
    split
    case isTrue hle =>
      refine List.pairwise_cons.mpr ⟨?_, h⟩
      intro x hx
      rcases List.mem_cons.mp hx with rfl | hx'
      · exact hle
      · exact le_trans hle (hq x hx')
    case isFalse hgt =>
      refine List.pairwise_cons.mpr ⟨?_, ih hrest⟩
      intro x hx
      have hx2 : x ∈ p :: rest := (insertByJoin_perm p rest).mem_iff.mp hx
      rcases List.mem_cons.mp hx2 with rfl | hx'
      · exact le_of_not_le hgt
      · exact hq x hx'

lemma pairwise_sortByJoin (l : List Participant) :
    (sortByJoin l).Pairwise (fun a b => joinKey a ≤ joinKey b) := by
  induction l with
  | nil => simp [sortByJoin]
  | cons p rest ih => exact pairwise_insertByJoin p (sortByJoin rest) ih

lemma resolveHostAsHost_isSome (ps : List Participant) (h : ps ≠ []) :
    ∃ hst, resolveHostAsHost ps = some hst := by
  unfold resolveHostAsHost
  cases hs : sortByJoin ps with
  | nil =>
    exfalso
    have hperm := sortByJoin_perm ps
    rw [hs] at hperm
    exact h hperm.symm.eq_nil
  | cons a t => exact ⟨a, rfl⟩

lemma resolveHostAsHost_mem_min (ps : List Participant) (hst : Participant)
    (h : resolveHostAsHost ps = some hst) :
    hst ∈ ps ∧ ∀ p ∈ ps, joinKey hst ≤ joinKey p := by
  unfold resolveHostAsHost at h
  obtain ⟨t, hsort⟩ : ∃ t, sortByJoin ps = hst :: t := by
    cases hs : sortByJoin ps with
    | nil => rw [hs] at h; cases h
    | cons a t =>
      rw [hs] at h
      simp only [List.head?_cons, Option.some.injEq] at h
      exact ⟨t, by rw [h]⟩
  constructor
  · exact (sortByJoin_perm ps).mem_iff.mp (by rw [hsort]; exact List.mem_cons_self _ _)
  · intro p hp
    have hp' : p ∈ sortByJoin ps := (sortByJoin_perm ps).mem_iff.mpr hp
    rw [hsort] at hp'
    rcases List.mem_cons.mp hp' with rfl | hp''
    · exact le_refl _
    · have hpw := pairwise_sortByJoin ps
      rw [hsort] at hpw
      exact (List.pairwise_cons.mp hpw).1 p hp''

lemma joinKey_inj_of_pairwise (l : List Participant)
    (h : l.Pairwise (fun a b => joinKey a ≠ joinKey b)) :
    ∀ a ∈ l, ∀ b ∈ l, joinKey a = joinKey b → a = b := by
  induction l with
  | nil =>
    intro a ha
    simp at ha
  | cons x xs ih =>
    rcases List.pairwise_cons.mp h with ⟨hx, hxs⟩
    intro a ha b hb heq
    rcases List.mem_cons.mp ha with rfl | ha' <;>
      rcases List.mem_cons.mp hb with rfl | hb'
    · rfl
    · exact absurd heq (hx b hb')
    · exact absurd heq.symm (hx a ha')
    · exact ih hxs a ha' b hb' heq

/-- C6 counterexample: two participants sharing the same join timestamp.
The two delivery orders of the same participant set resolve different
hosts (JavaScript's sort is stable, so ties keep delivered order), and
the two resolved participants are distinct — the selection is NOT
independent of the order in which the participant list is delivered. -/
theorem c6_counterexample_tie_order_dependent :
    List.Perm
      [(⟨"a", "A", true, some 5⟩ : Participant), ⟨"b", "B", false, some 5⟩]
      [⟨"b", "B", false, some 5⟩, ⟨"a", "A", true, some 5⟩] ∧
    resolveHostAsHost [⟨"a", "A", true, some 5⟩, ⟨"b", "B", false, some 5⟩]
      = some ⟨"a", "A", true, some 5⟩ ∧
    resolveHostAsHost [⟨"b", "B", false, some 5⟩, ⟨"a", "A", true, some 5⟩]
      = some ⟨"b", "B", false, some 5⟩ ∧
    (⟨"a", "A", true, some 5⟩ : Participant) ≠ ⟨"b", "B", false, some 5⟩ :=
  ⟨List.Perm.swap _ _ _, by decide, by decide, by decide⟩

/-- C6 amended: in the host branch, resolution picks a participant with
the earliest join timestamp among all current participants (the local one
included); whenever the join timestamps are pairwise distinct the
selection is independent of delivered order; on ties the delivered order
decides. -/
theorem c6_host_resolution_earliest_join (ps : List Participant)
    (hne : ps ≠ []) :
    ∃ hst, resolveHostAsHost ps = some hst ∧ hst ∈ ps ∧
      (∀ p ∈ ps, joinKey hst ≤ joinKey p) ∧
      (∀ ps', ps'.Perm ps →
        ps.Pairwise (fun a b => joinKey a ≠ joinKey b) →
        resolveHostAsHost ps' = some hst) := by
  obtain ⟨hst, hh⟩ := resolveHostAsHost_isSome ps hne
  obtain ⟨hmem, hmin⟩ := resolveHostAsHost_mem_min ps hst hh
  refine ⟨hst, hh, hmem, hmin, ?_⟩
  intro ps' hperm hinj
  have hne' : ps' ≠ [] := by
    intro h0
    rw [h0] at hperm
    exact hne hperm.symm.eq_nil
  obtain ⟨hst', hh'⟩ := resolveHostAsHost_isSome ps' hne'
  obtain ⟨hmem', hmin'⟩ := resolveHostAsHost_mem_min ps' hst' hh'
  have hmemps : hst' ∈ ps := hperm.mem_iff.mp hmem'
  have hmemps' : hst ∈ ps' := hperm.mem_iff.mpr hmem
  have h1 : joinKey hst ≤ joinKey hst' := hmin hst' hmemps
  have h2 : joinKey hst' ≤ joinKey hst := hmin' hst hmemps'
  have heq : hst' = hst :=
    joinKey_inj_of_pairwise ps hinj hst' hmemps hst hmem (le_antisymm h2 h1)
  rw [hh', heq]

/-- Witness for the amended C6: with two distinct join timestamps the
earlier participant is resolved as host, whichever order is delivered. -/
theorem c6_host_resolution_earliest_join_witness :
    ([(⟨"a", "A", true, some 1⟩ : Participant), ⟨"b", "B", false, some 2⟩] ≠ []) ∧
    (∃ hst,
      resolveHostAsHost [⟨"a", "A", true, some 1⟩, ⟨"b", "B", false, some 2⟩]
        = some hst ∧
      hst ∈ [(⟨"a", "A", true, some 1⟩ : Participant), ⟨"b", "B", false, some 2⟩] ∧
      (∀ p ∈ [(⟨"a", "A", true, some 1⟩ : Participant), ⟨"b", "B", false, some 2⟩],
        joinKey hst ≤ joinKey p) ∧
      (∀ ps', ps'.Perm [⟨"a", "A", true, some 1⟩, ⟨"b", "B", false, some 2⟩] →
        List.Pairwise (fun a b => joinKey a ≠ joinKey b)
          [(⟨"a", "A", true, some 1⟩ : Participant), ⟨"b", "B", false, some 2⟩] →
        resolveHostAsHost ps' = some hst)) :=
  ⟨by decide,
   c6_host_resolution_earliest_join
     [⟨"a", "A", true, some 1⟩, ⟨"b", "B", false, some 2⟩] (by decide)⟩

/-- C7 counterexample: the entirely empty participant list contains no
non-local participant, and there the viewer's render is the
`No host in the room` notice, not the waiting indication the claim
promises for every list without a non-local participant. -/
theorem c7_counterexample_empty_list_notice :
    resolveHostAsViewer [] = none ∧
    viewerRender [] [] = .noHostNotice ∧
    ViewerRender.noHostNotice ≠ ViewerRender.waitingForHost := by
  decide

/-- C7 amended: the viewer branch resolves the first non-local
participant in delivered order (no re-sorting); when every delivered
participant is local, no host is resolved, and the render is the waiting
indication for a non-empty list and the no-host notice for the empty
list (neither is the error screen). -/
theorem c7_viewer_first_remote_in_order (ps : List Participant)
    (tracks : List TrackRef) :
    resolveHostAsViewer ps = ps.find? (fun p => !p.isLocal) ∧
    ((∀ p ∈ ps, p.isLocal = true) →
      resolveHostAsViewer ps = none ∧
      (ps ≠ [] → viewerRender ps tracks = .waitingForHost) ∧
      (ps = [] → viewerRender ps tracks = .noHostNotice)) := by
  constructor
  · exact List.filter_head? _ ps
  · intro hall
    have hfil : ps.filter (fun p => !p.isLocal) = [] := by
      rw [List.filter_eq_nil_iff]
      intro p hp
      simp [hall p hp]
    have hnone : resolveHostAsViewer ps = none := by
      unfold resolveHostAsViewer
      rw [hfil]
      rfl
    refine ⟨hnone, ?_, ?_⟩
    · intro hne
      simp [viewerRender, hnone, List.length_eq_zero, hne]
    · intro h0
      subst h0
      rfl

/-- Witness for the amended C7: a lone local participant resolves no host
and the viewer shows the waiting indication. -/
theorem c7_viewer_first_remote_in_order_witness :
    resolveHostAsViewer [⟨"a", "A", true, some 1⟩] = none ∧
    (([(⟨"a", "A", true, some 1⟩ : Participant)] ≠ []) →
      viewerRender [⟨"a", "A", true, some 1⟩] [] = .waitingForHost) ∧
    (([(⟨"a", "A", true, some 1⟩ : Participant)] = []) →
      viewerRender [⟨"a", "A", true, some 1⟩] [] = .noHostNotice) :=
  (c7_viewer_first_remote_in_order [⟨"a", "A", true, some 1⟩] []).2 (by decide)

lemma addLog_length_le (logs : List LogEntry) (e : LogEntry)
    (h : logs.length ≤ 100) : (addLog logs e).length ≤ 100 := by
  simp only [addLog]
  split
  case isTrue h' =>
    simp only [List.length_tail, List.length_append, List.length_cons,
      List.length_nil] at h' ⊢
    omega
  case isFalse h' =>
    simp only [List.length_append, List.length_cons] at h' ⊢
    omega

/-- C10: the log buffer never exceeds 100 visible entries: one append
keeps a buffer of at most 100 entries at at most 100; an append to a full
buffer of exactly 100 entries drops the oldest entry and keeps the new
one; and any sequence of appends starting from the empty buffer stays at
100 entries or fewer. -/
theorem c10_log_buffer_bounded (logs : List LogEntry) (e : LogEntry)
    (entries : List LogEntry) :
    (logs.length ≤ 100 → (addLog logs e).length ≤ 100) ∧
    (logs.length = 100 → addLog logs e = logs.tail ++ [e]) ∧
    (entries.foldl addLog []).length ≤ 100 := by
  refine ⟨addLog_length_le logs e, ?_, ?_⟩
  · intro h100
    cases logs with
    | nil => simp at h100
    | cons x xs =>
      simp only [addLog]
      rw [if_pos]
      · rfl
      · simp only [List.length_append, List.length_cons]
        simp only [List.length_cons] at h100
        omega
  · have hgen : ∀ (es start : List LogEntry), start.length ≤ 100 →
        (es.foldl addLog start).length ≤ 100 := by
      intro es
      induction es with
      | nil =>
        intro start h
        simpa using h
      | cons a as ih =>
        intro start h
        exact ih (addLog start a) (addLog_length_le start a h)
    exact hgen entries [] (by simp)

/-- Witness for C10: appending to a full buffer of 100 entries keeps the
length at 100 and drops the oldest entry. -/
theorem c10_log_buffer_bounded_witness :
    (addLog (List.replicate 100 ⟨"m", "t", .log⟩) ⟨"n", "t", .warn⟩).length ≤ 100 ∧
    addLog (List.replicate 100 ⟨"m", "t", .log⟩) ⟨"n", "t", .warn⟩
      = (List.replicate 100 (⟨"m", "t", .log⟩ : LogEntry)).tail
        ++ [⟨"n", "t", .warn⟩] :=
  ⟨(c10_log_buffer_bounded (List.replicate 100 ⟨"m", "t", .log⟩)
      ⟨"n", "t", .warn⟩ []).1 (by simp),
   (c10_log_buffer_bounded (List.replicate 100 ⟨"m", "t", .log⟩)
      ⟨"n", "t", .warn⟩ []).2.1 (by simp)⟩
